import Mathlib

/-!
Shallow embedding of the reconciliation core of this repository:
the `ZStack` composite view and its `StackSplice` element-splice cursor
(`xilem/src/view/zstack.rs`), and the `Textbox` widget-mutation surface
(`masonry/src/widget/textbox.rs`).

Elements and widgets are abstracted over a type `W`: the splice machinery
never inspects a child, it only moves, inserts and removes them.  A
`StackSplice` is the triple of fields of the Rust struct: the cursor
index, the parent `ZStack`'s child list (the part of the `WidgetMut`
that splice operations read and write), and the scratch `AppendVec`.
Callbacks handed to `with_scratch` may, through the `AppendVec` API,
only push elements, so such a callback is modelled by the list of
elements it pushes together with its result.
-/

namespace Xilem

/-- Modelled from the spec: the masonry `ZStack` widget is not under `src/`;
§6 requires child insertion on a multi-child node.  The splice calls
`ZStack::insert_child_pod(&mut self.element, widget)` with no index
argument, so the new child is placed after every existing child (the top
of the z-order). -/
def ZStack.insert_child_pod {W : Type} (children : List W) (child : W) : List W :=
  children ++ [child]

/-- Modelled from the spec: builder-style variant used by `Stack::build`
(`widget = widget.with_child_pod(child)`); §4.5 says build "appends each
sequence child's element as a child in order". -/
def ZStack.with_child_pod {W : Type} (children : List W) (child : W) : List W :=
  children ++ [child]

/-- Modelled from the spec: §6 remove-child-at-index, called by
`StackSplice::delete` as `ZStack::remove_child(&mut self.element, self.idx)`. -/
def ZStack.remove_child {W : Type} (children : List W) (idx : Nat) : List W :=
  children.eraseIdx idx

/-- Modelled from the spec: §6 get-mutable-child-at-index; `ZStack::child_mut`
returns an optional handle to the child at `idx`. -/
def ZStack.child_mut {W : Type} (children : List W) (idx : Nat) : Option W :=
  children[idx]?

/-- The state of `StackSplice<'w>`: cursor index, the parent `ZStack`'s
child list, and the scratch `AppendVec`. -/
structure StackSplice (W : Type) where
  idx : Nat
  element : List W
  scratch : List W
deriving DecidableEq, Repr

namespace StackSplice

/-- `StackSplice::new`: index 0, the given parent children, empty scratch. -/
def new {W : Type} (element : List W) : StackSplice W :=
  { idx := 0, element := element, scratch := [] }

/-- `ElementSplice::insert` for `StackSplice`:
`insert_child_pod(&mut self.element, element); self.idx += 1;`. -/
def insert {W : Type} (s : StackSplice W) (e : W) : StackSplice W :=
  { s with element := ZStack.insert_child_pod s.element e, idx := s.idx + 1 }

/-- One iteration of the drain loop in `with_scratch`:
`insert_child_pod(&mut self.element, element); self.idx += 1;`. -/
def drain_step {W : Type} (s : StackSplice W) (e : W) : StackSplice W :=
  { s with element := ZStack.insert_child_pod s.element e, idx := s.idx + 1 }

/-- `ElementSplice::with_scratch`: the callback (modelled by the list
`new_elems` it pushes and its result `r`) runs first against the scratch
list; then `self.scratch.drain()` yields every scratch element in FIFO
order and each is pushed through `insert_child_pod`, the index advancing
per item; the callback's result is returned. -/
def with_scratch {W R : Type} (s : StackSplice W) (new_elems : List W) (r : R) :
    StackSplice W × R :=
  let drained := s.scratch ++ new_elems
  (drained.foldl drain_step { s with scratch := [] }, r)

/-- `ElementSplice::mutate`: the callback receives exclusive access to the
child at the current index; afterwards `self.idx += 1`.  Out of range the
handle dangles (dereferencing it would abort), modelled by `none`. -/
def mutate {W R : Type} (s : StackSplice W) (f : W → W × R) :
    StackSplice W × Option R :=
  match s.element[s.idx]? with
  | some c => ({ s with element := s.element.set s.idx (f c).1, idx := s.idx + 1 }, some (f c).2)
  | none => ({ s with idx := s.idx + 1 }, none)

/-- `ElementSplice::skip`: `self.idx += n`. -/
def skip {W : Type} (s : StackSplice W) (n : Nat) : StackSplice W :=
  { s with idx := s.idx + n }

/-- `ElementSplice::delete`: the callback first receives exclusive access
to the child at the current index (for teardown), then
`ZStack::remove_child(&mut self.element, self.idx)` removes that slot;
the index is left unchanged and the callback's result is returned. -/
def delete {W R : Type} (s : StackSplice W) (f : W → W × R) :
    StackSplice W × Option R :=
  match s.element[s.idx]? with
  | some c =>
    ({ s with element := ZStack.remove_child (s.element.set s.idx (f c).1) s.idx }, some (f c).2)
  | none => ({ s with element := ZStack.remove_child s.element s.idx }, none)

end StackSplice

/-- One splice operation of the `ElementSplice` trait, with callbacks
reduced to their effect: a `with_scratch` callback is the list of elements
it pushes, a `mutate` or `delete` callback is the in-place mutation it
performs on the granted child. -/
inductive SpliceOp (W : Type) where
  | insert (e : W)
  | with_scratch (new_elems : List W)
  | mutate (f : W → W)
  | skip (n : Nat)
  | delete (f : W → W)

/-- Apply one splice operation to a splice state, discarding callback
results. -/
def applyOp {W : Type} (s : StackSplice W) : SpliceOp W → StackSplice W
  | .insert e => s.insert e
  | .with_scratch new_elems => (s.with_scratch new_elems ()).1
  | .mutate f => (s.mutate fun c => (f c, ())).1
  | .skip n => s.skip n
  | .delete f => (s.delete fun c => (f c, ())).1

/-- Apply a whole reconciliation trace (a list of splice operations) in
order. -/
def applyOps {W : Type} (s : StackSplice W) (ops : List (SpliceOp W)) : StackSplice W :=
  ops.foldl applyOp s

/-- `Stack::build`: `ZStack::new()` (no children), then for each element
the sequence pushed into the scratch `AppendVec`, in order,
`widget = widget.with_child_pod(child)`.  The sequence's build output is
abstracted as the list `elements` it appended. -/
def Stack.build {W : Type} (elements : List W) : List W :=
  elements.foldl ZStack.with_child_pod []

/-- `Stack::rebuild`: creates `StackSplice::new(element)`, lets
`seq_rebuild` drive it (abstracted as the operation trace `ops`), and
returns the final splice state, whose scratch the trailing
`debug_assert!` requires empty. -/
def Stack.rebuild {W : Type} (element : List W) (ops : List (SpliceOp W)) : StackSplice W :=
  applyOps (StackSplice.new element) ops

/-- `Stack::teardown`: creates `StackSplice::new(element)`, lets
`seq_teardown` drive it (abstracted as the operation trace `ops`), and
returns the final splice state, whose scratch the trailing
`debug_assert!` requires empty. -/
def Stack.teardown {W : Type} (element : List W) (ops : List (SpliceOp W)) : StackSplice W :=
  applyOps (StackSplice.new element) ops

/-! ### Type-erased children and downcast

`ZStackElement` wraps a `Pod<Box<dyn Widget>>`: a type-erased widget.  A
boxed widget is modelled as a concrete-type tag together with its payload;
a downcast to a concrete type `W` succeeds exactly when the tag matches.
A Rust panic is modelled as `Except.error` carrying the panic message. -/

/-- A type-erased child of the `ZStack`: the tag stands for the dynamic
concrete widget type, the payload for the widget value itself. -/
structure BoxedWidget where
  tag : Nat
  payload : Nat
deriving DecidableEq, Repr

/-- Modelled from the spec: `WidgetMut::downcast` (masonry core, not under
`src/`) recovers the concretely-typed widget behind a `dyn Widget` handle;
§4.4 requires that a mismatch "fail loudly (fatal), never silently", so the
mismatch aborts (an `Except.error`). -/
def WidgetMut.downcast (expected : Nat) (w : BoxedWidget) : Except String Nat :=
  if w.tag = expected then .ok w.payload else .error "failed to downcast widget"

/-- `SuperElement<Pod<W>, ViewCtx>::with_downcast_val` for `ZStackElement`:
`ZStack::child_mut(&mut this.parent, this.idx)` fetches the child at the
cursor's index (`.expect` aborts when it is absent), `child.downcast()`
recovers the concrete type (aborting on mismatch), and the callback `f`
runs on the result; the caller gets back the (possibly mutated) parent and
`f`'s result. -/
def ZStackElement.with_downcast_val {R : Type} (expected : Nat)
    (children : List BoxedWidget) (idx : Nat) (f : Nat → Nat × R) :
    Except String (List BoxedWidget × R) :=
  match ZStack.child_mut children idx with
  | none => .error "This is supposed to be a widget"
  | some c =>
    match WidgetMut.downcast expected c with
    | .error m => .error m
    | .ok v =>
      let (v', r) := f v
      .ok (children.set idx { c with payload := v' }, r)

/-! ### Textbox (`masonry/src/widget/textbox.rs`)

The `TextEditor` / `TextWithSelection` collaborator lives outside `src/`;
only the fields the embedded operations touch are modelled: the text, the
current brush of the displayed text, whether an IME preedit is active, and
the `needs_rebuild` flag the layout system consumes.  Brushes are abstracted
over a type `B`.  The widget context is the pair of flags the embedded
methods query, and a `request_layout` call is reported as a returned
`Bool`. -/

/-- The word-wrapping mode of the textbox. -/
inductive LineBreaking where
  | wordWrap
  | clip
  | overflow
deriving DecidableEq, Repr

/-- The modelled state of the `TextEditor` (`TextWithSelection`)
collaborator. -/
structure TextEditor (B : Type) where
  text : String
  brush : B
  preedit : Bool
  needs_rebuild : Bool
deriving DecidableEq, Repr

namespace TextEditor

/-- Modelled from the spec: `TextWithSelection::set_text` (not under
`src/`) replaces the stored text; the cursor mutation flags the contents
as changed so the layout pass rebuilds (§4.4, §6). -/
def set_text {B : Type} (e : TextEditor B) (s : String) : TextEditor B :=
  { e with text := s, needs_rebuild := true }

/-- Modelled from the spec: `TextWithSelection::set_brush` (not under
`src/`) replaces the brush of the displayed text and flags the contents
as changed (colour changes require a relayout, per the comment at
`textbox.rs:243`). -/
def set_brush {B : Type} (e : TextEditor B) (b : B) : TextEditor B :=
  { e with brush := b, needs_rebuild := true }

/-- Modelled from the spec: `TextEditor::reset_preedit` (not under `src/`)
discards any pending IME composition. -/
def reset_preedit {B : Type} (e : TextEditor B) : TextEditor B :=
  { e with preedit := false }

end TextEditor

/-- The `Textbox` widget struct. -/
structure Textbox (B : Type) where
  editor : TextEditor B
  line_break_mode : LineBreaking
  show_disabled : Bool
  brush : B
deriving DecidableEq, Repr

/-- The parts of the `WidgetMut` context queried by the embedded `Textbox`
methods. -/
structure TextboxCtx where
  focused : Bool
  disabled : Bool
deriving DecidableEq, Repr

namespace Textbox

/-- `Textbox::set_text_properties`: runs `f` on the editor, then requests
a layout when `editor.needs_rebuild()` holds; returns (widget after `f`,
whether `request_layout` was called, `f`'s result). -/
def set_text_properties {B R : Type} (w : Textbox B)
    (f : TextEditor B → TextEditor B × R) : Textbox B × Bool × R :=
  let (e', r) := f w.editor
  ({ w with editor := e' }, e'.needs_rebuild, r)

/-- `Textbox::reset_text`: warns when focused (no state change), resets the
editor's preedit, then `set_text_properties(|layout| layout.set_text(new_text))`;
returns (widget, whether layout was requested, whether the warning fired). -/
def reset_text {B : Type} (c : TextboxCtx) (w : Textbox B) (new_text : String) :
    Textbox B × Bool × Bool :=
  let warned := c.focused
  let w1 := { w with editor := w.editor.reset_preedit }
  let (w2, requested, _) := set_text_properties w1 fun layout => (layout.set_text new_text, ())
  (w2, requested, warned)

/-- `Textbox::set_text_brush`: stores the brush on the widget always; when
the widget is not disabled, also applies the stored brush to the displayed
text via `set_text_properties`; returns (widget, whether layout was
requested). -/
def set_text_brush {B : Type} (c : TextboxCtx) (w : Textbox B) (b : B) :
    Textbox B × Bool :=
  let w1 := { w with brush := b }
  if c.disabled then (w1, false)
  else
    let (w2, requested, _) := set_text_properties w1 fun layout => (layout.set_brush w1.brush, ())
    (w2, requested)

/-- The `Update::DisabledChanged(disabled)` arm of `Textbox::update`
(`textbox.rs:235-245`): when `show_disabled` is set, the editor brush
becomes the theme's disabled colour or the stored brush; a layout is
requested unconditionally. -/
def update_disabled_changed {B : Type} (disabled_color : B) (w : Textbox B)
    (disabled : Bool) : Textbox B × Bool :=
  let w' :=
    if w.show_disabled then
      if disabled then { w with editor := w.editor.set_brush disabled_color }
      else { w with editor := w.editor.set_brush w.brush }
    else w
  (w', true)

end Textbox

/-! ### Helper lemmas -/

theorem foldl_drain_step {W : Type} (l : List W) (s : StackSplice W) :
    l.foldl StackSplice.drain_step s =
      { idx := s.idx + l.length, element := s.element ++ l, scratch := s.scratch } := by
  induction l generalizing s with
  | nil => simp
  | cons e t ih =>
    simp only [List.foldl_cons, ih, StackSplice.drain_step, ZStack.insert_child_pod,
      List.length_cons, List.append_assoc, List.singleton_append, StackSplice.mk.injEq,
      and_true, true_and]
    omega

theorem foldl_with_child_pod {W : Type} (l acc : List W) :
    l.foldl ZStack.with_child_pod acc = acc ++ l := by
  induction l generalizing acc with
  | nil => simp
  | cons e t ih => simp [ZStack.with_child_pod, ih]

theorem set_eraseIdx {W : Type} (l : List W) (i : Nat) (c : W) :
    (l.set i c).eraseIdx i = l.eraseIdx i := by
  induction l generalizing i with
  | nil => rfl
  | cons a t ih =>
    cases i with
    | zero => rfl
    | succ n => simpa [List.eraseIdx] using ih n

theorem getElem?_eraseIdx_self {W : Type} (l : List W) (i : Nat) :
    (l.eraseIdx i)[i]? = l[i + 1]? := by
  induction l generalizing i with
  | nil => rfl
  | cons a t ih =>
    cases i with
    | zero => simp [List.eraseIdx]
    | succ n => simpa [List.eraseIdx] using ih n

theorem applyOp_scratch_empty {W : Type} (s : StackSplice W) (op : SpliceOp W)
    (h : s.scratch = []) : (applyOp s op).scratch = [] := by
  cases op with
  | insert e => simpa [applyOp, StackSplice.insert] using h
  | with_scratch new_elems =>
    simp [applyOp, StackSplice.with_scratch, foldl_drain_step]
  | mutate f =>
    rcases hg : s.element[s.idx]? with _ | c <;>
      simpa [applyOp, StackSplice.mutate, hg] using h
  | skip n => simpa [applyOp, StackSplice.skip] using h
  | delete f =>
    rcases hg : s.element[s.idx]? with _ | c <;>
      simpa [applyOp, StackSplice.delete, hg] using h

theorem applyOps_scratch_empty {W : Type} (s : StackSplice W) (ops : List (SpliceOp W))
    (h : s.scratch = []) : (applyOps s ops).scratch = [] := by
  induction ops generalizing s with
  | nil => simpa [applyOps] using h
  | cons op t ih =>
    simpa [applyOps, List.foldl_cons] using ih (applyOp s op) (applyOp_scratch_empty s op h)

theorem applyOp_idx_le {W : Type} (s : StackSplice W) (op : SpliceOp W) :
    s.idx ≤ (applyOp s op).idx := by
  cases op with
  | insert e => simp [applyOp, StackSplice.insert]
  | with_scratch new_elems =>
    simp only [applyOp, StackSplice.with_scratch, foldl_drain_step]
    omega
  | mutate f =>
    rcases hg : s.element[s.idx]? with _ | c <;> simp [applyOp, StackSplice.mutate, hg]
  | skip n => simp [applyOp, StackSplice.skip]
  | delete f =>
    rcases hg : s.element[s.idx]? with _ | c <;> simp [applyOp, StackSplice.delete, hg]

/-! ### Claims -/

/-- Claim C1, counterexample: on the splice state with index 0 over the
single-child list `[5]`, `insert 7` does not place `7` at position 0
(it lands after the existing child), refuting "insert(e) inserts e into
the parent container's child list at position i". -/
theorem insert_not_at_current_index :
    ¬ (((⟨0, [5], []⟩ : StackSplice Nat).insert 7).element =
      ([5] : List Nat).take 0 ++ 7 :: ([5] : List Nat).drop 0) := by
  decide

/-- Claim C1 (amended): `insert(e)` appends `e` at the end of the parent
container's child list — which is position i exactly when i equals the
current number of children — leaves the splice index equal to i + 1, and
modifies no existing child and not the scratch list. -/
theorem insert_appends {W : Type} (s : StackSplice W) (e : W) :
    (s.insert e).element = s.element ++ [e] ∧
    (s.insert e).idx = s.idx + 1 ∧
    (s.insert e).scratch = s.scratch ∧
    (s.idx = s.element.length →
      (s.insert e).element = s.element.take s.idx ++ e :: s.element.drop s.idx) := by
  refine ⟨rfl, rfl, rfl, fun h => ?_⟩
  simp [StackSplice.insert, ZStack.insert_child_pod, h]

/-- Witness for `insert_appends` at a concrete splice whose index equals
its child count. -/
theorem insert_appends_witness :
    ((⟨1, [4], []⟩ : StackSplice Nat).insert 9).element =
      ([4] : List Nat).take 1 ++ 9 :: ([4] : List Nat).drop 1 :=
  (insert_appends (⟨1, [4], []⟩ : StackSplice Nat) 9).2.2.2 rfl

/-- Claim C2, counterexample: on the splice state with index 0 over the
single-child list `[5]`, a `with_scratch` whose callback pushes `7` does
not insert `7` starting at position 0 (it lands after the existing child),
refuting "drains the scratch list in FIFO order inserting e1..ek into the
parent container starting at position i". -/
theorem with_scratch_not_at_current_index :
    ¬ ((((⟨0, [5], []⟩ : StackSplice Nat).with_scratch [7] 0).1).element =
      ([5] : List Nat).take 0 ++ [7] ++ ([5] : List Nat).drop 0) := by
  decide

/-- Claim C2 (amended): `with_scratch(f)` first runs `f` (which appends
`e1..ek` to the scratch list), then drains the scratch list in FIFO order
appending each element at the end of the parent container's child list —
which coincides with insertion starting at position i exactly when i
equals the current number of children — leaves the splice index equal to
i + k, leaves the scratch list empty, and returns exactly `f`'s result. -/
theorem with_scratch_appends {W R : Type} (s : StackSplice W) (new_elems : List W) (r : R) :
    s.with_scratch new_elems r =
      ({ idx := s.idx + s.scratch.length + new_elems.length,
         element := s.element ++ s.scratch ++ new_elems,
         scratch := [] }, r) ∧
    (s.idx = s.element.length ∧ s.scratch = [] →
      ((s.with_scratch new_elems r).1.element =
        s.element.take s.idx ++ new_elems ++ s.element.drop s.idx ∧
       (s.with_scratch new_elems r).1.idx = s.idx + new_elems.length)) := by
  constructor
  · simp only [StackSplice.with_scratch, foldl_drain_step, List.length_append,
      List.append_assoc, Prod.mk.injEq, StackSplice.mk.injEq, and_true, true_and]
    omega
  · rintro ⟨h1, h2⟩
    simp [StackSplice.with_scratch, foldl_drain_step, h1, h2]

/-- Witness for `with_scratch_appends` at a concrete splice whose index
equals its child count and whose scratch is empty. -/
theorem with_scratch_appends_witness :
    (((⟨1, [4], []⟩ : StackSplice Nat).with_scratch [7, 8] true).1.element =
      ([4] : List Nat).take 1 ++ [7, 8] ++ ([4] : List Nat).drop 1) ∧
    ((⟨1, [4], []⟩ : StackSplice Nat).with_scratch [7, 8] true).1.idx = 1 + 2 :=
  (with_scratch_appends (⟨1, [4], []⟩ : StackSplice Nat) [7, 8] true).2 ⟨rfl, rfl⟩

/-- Claim C3: when a child exists at the current index i, `delete(f)`
grants `f` exclusive access to that child, then removes the slot at
position i from the parent container, returns `f`'s result, leaves the
splice index equal to i, and the former child at position i + 1 is now at
position i; the scratch list is untouched. -/
theorem delete_removes_current_slot {W R : Type} (s : StackSplice W) (f : W → W × R)
    (c : W) (h : s.element[s.idx]? = some c) :
    (s.delete f).2 = some (f c).2 ∧
    (s.delete f).1.idx = s.idx ∧
    (s.delete f).1.element = s.element.eraseIdx s.idx ∧
    (s.delete f).1.element[s.idx]? = s.element[s.idx + 1]? ∧
    (s.delete f).1.scratch = s.scratch := by
  have he : (s.delete f).1.element = s.element.eraseIdx s.idx := by
    simp [StackSplice.delete, h, ZStack.remove_child, set_eraseIdx]
  refine ⟨by simp [StackSplice.delete, h], by simp [StackSplice.delete, h], he, ?_,
    by simp [StackSplice.delete, h]⟩
  rw [he, getElem?_eraseIdx_self]

/-- Witness for `delete_removes_current_slot` on the two-child splice
`⟨0, [4, 9], []⟩` with a teardown callback returning twice the child. -/
theorem delete_removes_current_slot_witness :
    ((⟨0, [4, 9], []⟩ : StackSplice Nat).delete fun c => (c + 1, c * 2)).2 = some 8 ∧
    ((⟨0, [4, 9], []⟩ : StackSplice Nat).delete fun c => (c + 1, c * 2)).1.element = [9] ∧
    ((⟨0, [4, 9], []⟩ : StackSplice Nat).delete fun c => (c + 1, c * 2)).1.idx = 0 := by
  have h := delete_removes_current_slot (⟨0, [4, 9], []⟩ : StackSplice Nat)
    (fun c => (c + 1, c * 2)) 4 (by decide)
  exact ⟨h.1, h.2.2.1, h.2.1⟩

/-- Claim C4: the splice index is monotone — every single splice operation
leaves the index greater than or equal to what it was, and hence every
sequence of operations (in particular one started from the index-0 splice
`StackSplice.new`) never moves the index backward. -/
theorem splice_idx_monotone {W : Type} :
    (∀ (op : SpliceOp W) (s : StackSplice W), s.idx ≤ (applyOp s op).idx) ∧
    (∀ (ops : List (SpliceOp W)) (s : StackSplice W), s.idx ≤ (applyOps s ops).idx) ∧
    (∀ (ops : List (SpliceOp W)) (element : List W),
      (StackSplice.new element).idx ≤ (applyOps (StackSplice.new element) ops).idx) := by
  have hops : ∀ (ops : List (SpliceOp W)) (s : StackSplice W), s.idx ≤ (applyOps s ops).idx := by
    intro ops
    induction ops with
    | nil => intro s; simp [applyOps]
    | cons op t ih =>
      intro s
      calc s.idx ≤ (applyOp s op).idx := applyOp_idx_le s op
        _ ≤ (applyOps (applyOp s op) t).idx := ih (applyOp s op)
        _ = (applyOps s (op :: t)).idx := rfl
  exact ⟨fun op s => applyOp_idx_le s op, hops, fun ops element => hops ops _⟩

/-- Claim C5: the splice is created with an empty scratch list,
`with_scratch` fully drains it and no other operation adds to it, so at
the end of every `Stack::rebuild` and every `Stack::teardown` pass —
whatever operation trace the view sequence issued — the scratch list is
empty, as the trailing `debug_assert!` demands. -/
theorem scratch_empty_after_pass {W : Type} :
    (∀ (element : List W), (StackSplice.new element).scratch = []) ∧
    (∀ (element : List W) (ops : List (SpliceOp W)),
      (Stack.rebuild element ops).scratch = []) ∧
    (∀ (element : List W) (ops : List (SpliceOp W)),
      (Stack.teardown element ops).scratch = []) := by
  refine ⟨fun element => rfl, fun element ops => ?_, fun element ops => ?_⟩ <;>
    exact applyOps_scratch_empty _ ops rfl

/-- Claim C6: `Stack::build` starts from a fresh childless container and
appends each element the sequence's `seq_build` pushed into the scratch
collection, in order, so the built container's child list equals the
sequence's build output. -/
theorem build_children_in_order {W : Type} (elements : List W) :
    Stack.build elements = elements := by
  simp [Stack.build, foldl_with_child_pod]

/-- Claim C7: `with_downcast_val` on a type-erased `ZStack` child succeeds
(running the callback on the concretely-typed widget) whenever a child
exists at the cursor index and its dynamic type matches the expected one;
when the index is out of range or the type does not match it aborts with
the corresponding panic message instead of continuing. -/
theorem with_downcast_val_ok_iff_bookkeeping {R : Type} (expected : Nat)
    (children : List BoxedWidget) (idx : Nat) (f : Nat → Nat × R) :
    (∀ c, children[idx]? = some c → c.tag = expected →
      ZStackElement.with_downcast_val expected children idx f =
        .ok (children.set idx { c with payload := (f c.payload).1 }, (f c.payload).2)) ∧
    (children[idx]? = none →
      ZStackElement.with_downcast_val expected children idx f =
        .error "This is supposed to be a widget") ∧
    (∀ c, children[idx]? = some c → c.tag ≠ expected →
      ZStackElement.with_downcast_val expected children idx f =
        .error "failed to downcast widget") := by
  refine ⟨fun c hc htag => ?_, fun hc => ?_, fun c hc htag => ?_⟩
  · simp [ZStackElement.with_downcast_val, ZStack.child_mut, WidgetMut.downcast, hc, htag]
  · simp [ZStackElement.with_downcast_val, ZStack.child_mut, hc]
  · simp [ZStackElement.with_downcast_val, ZStack.child_mut, WidgetMut.downcast, hc, htag]

/-- Witness for `with_downcast_val_ok_iff_bookkeeping`: a matching tag at
index 0 succeeds; index 5 is out of range and aborts; a mismatched tag at
index 0 aborts. -/
theorem with_downcast_val_witness :
    ZStackElement.with_downcast_val 3 [⟨3, 7⟩] 0 (fun v => (v + 1, v)) =
      .ok ([⟨3, 8⟩], 7) ∧
    ZStackElement.with_downcast_val 3 [⟨3, 7⟩] 5 (fun v => (v + 1, v)) =
      .error "This is supposed to be a widget" ∧
    ZStackElement.with_downcast_val 2 [⟨3, 7⟩] 0 (fun v => (v + 1, v)) =
      .error "failed to downcast widget" := by
  refine ⟨?_, ?_, ?_⟩
  · exact (with_downcast_val_ok_iff_bookkeeping 3 [⟨3, 7⟩] 0 (fun v => (v + 1, v))).1
      ⟨3, 7⟩ (by decide) rfl
  · exact (with_downcast_val_ok_iff_bookkeeping 3 [⟨3, 7⟩] 5 (fun v => (v + 1, v))).2.1
      (by decide)
  · exact (with_downcast_val_ok_iff_bookkeeping 2 [⟨3, 7⟩] 0 (fun v => (v + 1, v))).2.2
      ⟨3, 7⟩ (by decide) (by decide)

/-- Claim C8: `Textbox::set_text_properties` runs `f` on the editor,
returns `f`'s result, and requests a layout if and only if the editor
reports `needs_rebuild` after `f`; when `f` leaves the editor in a state
that does not report a needed rebuild, no dirty flag is raised. -/
theorem set_text_properties_layout_iff_needs_rebuild {B R : Type} (w : Textbox B)
    (f : TextEditor B → TextEditor B × R) :
    Textbox.set_text_properties w f =
      ({ w with editor := (f w.editor).1 }, ((f w.editor).1).needs_rebuild, (f w.editor).2) := by
  rcases h : f w.editor with ⟨e', r⟩
  simp [Textbox.set_text_properties, h]

/-- Claim C9: `Textbox::set_text_brush` always stores the new brush on
the widget; it applies it to the displayed text exactly when the widget is
not disabled, leaving the displayed brush untouched when disabled; and the
`DisabledChanged(false)` update re-applies the stored brush to the display
when `show_disabled` is set. -/
theorem set_text_brush_stored_vs_displayed {B : Type} (c : TextboxCtx) (w : Textbox B)
    (b disabled_color : B) :
    (Textbox.set_text_brush c w b).1.brush = b ∧
    (c.disabled = false → (Textbox.set_text_brush c w b).1.editor.brush = b) ∧
    (c.disabled = true → (Textbox.set_text_brush c w b).1.editor = w.editor) ∧
    (w.show_disabled = true →
      (Textbox.update_disabled_changed disabled_color w false).1.editor.brush = w.brush) := by
  refine ⟨?_, fun hd => ?_, fun hd => ?_, fun hs => ?_⟩
  · rcases hd : c.disabled <;>
      simp [Textbox.set_text_brush, Textbox.set_text_properties, hd]
  · simp [Textbox.set_text_brush, Textbox.set_text_properties, TextEditor.set_brush, hd]
  · simp [Textbox.set_text_brush, hd]
  · simp [Textbox.update_disabled_changed, TextEditor.set_brush, hs]

/-- Witness for `set_text_brush_stored_vs_displayed` on a concrete enabled
widget, a concrete disabled context, and a concrete `DisabledChanged`
update. -/
theorem set_text_brush_witness :
    (Textbox.set_text_brush ⟨false, false⟩
      (⟨⟨"hi", 3, false, false⟩, .wordWrap, true, 4⟩ : Textbox Nat) 5).1.editor.brush = 5 ∧
    (Textbox.set_text_brush ⟨false, true⟩
      (⟨⟨"hi", 3, false, false⟩, .wordWrap, true, 4⟩ : Textbox Nat) 5).1.editor =
      ⟨"hi", 3, false, false⟩ ∧
    (Textbox.update_disabled_changed 9
      (⟨⟨"hi", 3, false, false⟩, .wordWrap, true, 4⟩ : Textbox Nat) false).1.editor.brush = 4 := by
  refine ⟨?_, ?_, ?_⟩
  · exact (set_text_brush_stored_vs_displayed ⟨false, false⟩
      (⟨⟨"hi", 3, false, false⟩, .wordWrap, true, 4⟩ : Textbox Nat) 5 9).2.1 rfl
  · exact (set_text_brush_stored_vs_displayed ⟨false, true⟩
      (⟨⟨"hi", 3, false, false⟩, .wordWrap, true, 4⟩ : Textbox Nat) 5 9).2.2.1 rfl
  · exact (set_text_brush_stored_vs_displayed ⟨false, false⟩
      (⟨⟨"hi", 3, false, false⟩, .wordWrap, true, 4⟩ : Textbox Nat) 5 9).2.2.2 rfl

/-- Claim C10: `Textbox::reset_text` resets the editor's preedit and then
sets the text to the new string; the resulting widget state (and whether a
layout was requested) is the same whatever the focus state — focus only
controls the warning — and afterwards the textbox's text equals the new
string unconditionally. -/
theorem reset_text_unconditional {B : Type} (c c' : TextboxCtx) (w : Textbox B)
    (s : String) :
    (Textbox.reset_text c w s).1.editor.text = s ∧
    (Textbox.reset_text c w s).1.editor.preedit = false ∧
    (Textbox.reset_text c w s).1 = (Textbox.reset_text c' w s).1 ∧
    (Textbox.reset_text c w s).2.1 = (Textbox.reset_text c' w s).2.1 ∧
    (Textbox.reset_text c w s).2.2 = c.focused := by
  refine ⟨?_, ?_, ?_, ?_, ?_⟩ <;>
    simp [Textbox.reset_text, Textbox.set_text_properties, TextEditor.set_text,
      TextEditor.reset_preedit]

end Xilem
